import Mathlib

/-!
Shallow embedding of the optimistic-update / real-time-reconciliation layer
of the shopping-list client: the `useList` hook (`src/hooks/useList.ts`),
the items service (`src/services/supabase/items.ts`) and the realtime
subscription registry (`src/services/supabase/realtime.ts`).

Stateful hook code is embedded as pure functions from the pre-state and the
(externally chosen) network response to the post-state, together with an
explicit trace of the externally visible steps (state writes, network
requests, error writes, refetches) in the order the code performs them.
-/

namespace ShoppingList

/-- The `profiles` join row selected alongside an item (`display_name`, `email`). -/
structure Profiles where
  display_name : Option String
  email : Option String
deriving DecidableEq, Repr

/-- A database row of the `items` table as delivered to the hook
(`Database['public']['Tables']['items']['Row']`, plus the optional
`profiles` join used by `getListItems` and `createItem`). -/
structure DbItem where
  id : String
  list_id : String
  text : String
  quantity : Option String
  notes : Option String
  is_bought : Bool
  order_index : Int
  version : Nat
  created_at : String
  updated_at : String
  deleted_at : Option String
  created_by : Option String
  profiles : Option Profiles
deriving DecidableEq, Repr

/-- The app-level `Item` model (`src/types/models.ts`). -/
structure Item where
  id : String
  listId : String
  text : String
  quantity : Option String
  notes : Option String
  isBought : Bool
  orderIndex : Int
  version : Nat
  createdAt : String
  updatedAt : String
  deletedAt : Option String
  createdBy : Option String
  createdByName : Option String
deriving DecidableEq, Repr

/-- JavaScript `v || undefined` on a string-or-null value: both `null` and
the empty string are falsy and map to `undefined` (`none`). -/
def orUndefined : Option String → Option String
  | none => none
  | some s => if s = "" then none else some s

/-- JavaScript `a || b` on string-or-null values: `a` when truthy, else `b`. -/
def jsOrElse (a b : Option String) : Option String :=
  match orUndefined a with
  | some s => some s
  | none => b

/-- The row-to-model mapping used by `fetchItems` (useList.ts lines 27-41):
includes provenance (`createdBy`, `createdByName` from the profiles join). -/
def mapItemFetch (d : DbItem) : Item :=
  { id := d.id
    listId := d.list_id
    text := d.text
    quantity := orUndefined d.quantity
    notes := orUndefined d.notes
    isBought := d.is_bought
    orderIndex := d.order_index
    version := d.version
    createdAt := d.created_at
    updatedAt := d.updated_at
    deletedAt := orUndefined d.deleted_at
    createdBy := orUndefined d.created_by
    createdByName :=
      jsOrElse (d.profiles.bind Profiles.display_name)
        (jsOrElse (d.profiles.bind Profiles.email) none) }

/-- The row-to-model mapping used by `addItem` (useList.ts lines 133-147):
like the fetch mapping but with a `currentUserName` fallback for the name. -/
def mapItemAdd (d : DbItem) (currentUserName : Option String) : Item :=
  { mapItemFetch d with
    createdByName :=
      jsOrElse (d.profiles.bind Profiles.display_name)
        (jsOrElse (d.profiles.bind Profiles.email)
          (jsOrElse currentUserName none)) }

/-- The row-to-model mapping used by `updateItem`, `toggleItem` and
`handleRealtimeChange` (useList.ts lines 67-79, 168-180, 199-211): the
mapped object literal has no `createdBy`/`createdByName` fields, so both
are `undefined` (`none`). -/
def mapItemBare (d : DbItem) : Item :=
  { mapItemFetch d with createdBy := none, createdByName := none }

/-- The change-event types of the realtime service. -/
inductive ChangeType
  | INSERT
  | UPDATE
  | DELETE
deriving DecidableEq, Repr

/-- An inbound change-feed event (`ItemChange` in realtime.ts). -/
structure ItemChange where
  type : ChangeType
  item : DbItem
deriving DecidableEq, Repr

/-- Embedding of `handleRealtimeChange` (useList.ts lines 60-99). `guard` is the value of
the `isPerformingOperation` ref at the time the event arrives: when it is
`true` the handler returns at once and the event is dropped, whatever the
event's record id. Otherwise the event is applied to the items array:
INSERT appends unless the id is already present, UPDATE replaces the
matching record, DELETE filters the matching record out. -/
def handleRealtimeChange (guard : Bool) (change : ItemChange)
    (items : List Item) : List Item :=
  if guard then items
  else
    let m := mapItemBare change.item
    match change.type with
    | .INSERT =>
        if items.any (fun i => i.id == m.id) then items else items ++ [m]
    | .UPDATE => items.map (fun i => if i.id == m.id then m else i)
    | .DELETE => items.filter (fun i => i.id != m.id)

/-- Embedding of `unboughtItems` (useList.ts line 277): a plain filter of the items
array by the negated bought flag, in array order. -/
def unboughtItems (items : List Item) : List Item :=
  items.filter (fun i => !i.isBought)

/-- Embedding of `boughtItems` (useList.ts line 278): a plain filter of the items array
by the bought flag, in array order. -/
def boughtItems (items : List Item) : List Item :=
  items.filter (fun i => i.isBought)

/-- The network requests the hook's operations issue through `ItemsService`. -/
inductive NetRequest
  | createReq (listId text : String) (quantity notes : Option String)
      (orderIndex : Int)
  | updateReq (itemId : String)
  | toggleReq (itemId : String) (isBought : Bool)
  | deleteReq (itemId : String)
  | reorderReq (updates : List (String × Int))
  | clearReq (listId : String) (onlyBought : Bool)
deriving DecidableEq, Repr

/-- Externally visible steps of one hook operation, in program order:
state writes to the items array, network requests, error writes, and the
`fetchItems()` resynchronization call. -/
inductive Step
  | setItemsStep (items : List Item)
  | requestStep (req : NetRequest)
  | setErrorStep (e : String)
  | refetchStep
deriving DecidableEq, Repr

def isSetItems : Step → Bool
  | .setItemsStep _ => true
  | _ => false

def isRequest : Step → Bool
  | .requestStep _ => true
  | _ => false

def isRefetch : Step → Bool
  | .refetchStep => true
  | _ => false

/-- Whether some write to the items array occurs strictly before the first
network request of a trace: the formal reading of "the optimistic local
mutation is applied before the network request is issued". -/
def optimisticBeforeRequest (tr : List Step) : Bool :=
  (tr.takeWhile (fun s => !isRequest s)).any isSetItems

/-- Outcome of one hook operation: its step trace, the final items array,
and the final error field (`none` when the operation did not set it). -/
structure OpResult where
  trace : List Step
  items : List Item
  error : Option String
deriving DecidableEq, Repr

/-- Embedding of `addItem` (useList.ts lines 111-155): awaits `ItemsService.createItem`
first; on error sets the error field; on success appends the mapped server
row to the items array. No provisional record is inserted before the
request. -/
def addItem (s : List Item) (listId text : String)
    (quantity notes currentUserName : Option String)
    (resp : Except String DbItem) : OpResult :=
  let req := NetRequest.createReq listId text quantity notes (s.length : Int)
  match resp with
  | .error e =>
      { trace := [.requestStep req, .setErrorStep e], items := s
        error := some e }
  | .ok d =>
      let s' := s ++ [mapItemAdd d currentUserName]
      { trace := [.requestStep req, .setItemsStep s'], items := s'
        error := none }

/-- Embedding of `updateItem` (useList.ts lines 158-183): awaits `ItemsService.updateItem`
first; on error sets the error field; on success replaces the record whose
id matches `itemId` with the bare-mapped server row. -/
def updateItem (s : List Item) (itemId : String)
    (resp : Except String DbItem) : OpResult :=
  let req := NetRequest.updateReq itemId
  match resp with
  | .error e =>
      { trace := [.requestStep req, .setErrorStep e], items := s
        error := some e }
  | .ok d =>
      let s' := s.map (fun i => if i.id == itemId then mapItemBare d else i)
      { trace := [.requestStep req, .setItemsStep s'], items := s'
        error := none }

/-- Embedding of `toggleItem` (useList.ts lines 186-218): awaits
`ItemsService.toggleItemBought` first; on error sets the error field; on
success replaces the record whose id matches `itemId` with the bare-mapped
server row. -/
def toggleItem (s : List Item) (itemId : String) (isBought : Bool)
    (resp : Except String DbItem) : OpResult :=
  let req := NetRequest.toggleReq itemId isBought
  match resp with
  | .error e =>
      { trace := [.requestStep req, .setErrorStep e], items := s
        error := some e }
  | .ok d =>
      let s' := s.map (fun i => if i.id == itemId then mapItemBare d else i)
      { trace := [.requestStep req, .setItemsStep s'], items := s'
        error := none }

/-- Embedding of `deleteItem` (useList.ts lines 221-238): awaits `ItemsService.deleteItem`
first; on error sets the error field and leaves the items array untouched;
on success filters the record out of the items array. The local removal
happens only after the soft-delete request has succeeded. -/
def deleteItem (s : List Item) (itemId : String)
    (resp : Option String) : OpResult :=
  let req := NetRequest.deleteReq itemId
  match resp with
  | some e =>
      { trace := [.requestStep req, .setErrorStep e], items := s
        error := some e }
  | none =>
      let s' := s.filter (fun i => i.id != itemId)
      { trace := [.requestStep req, .setItemsStep s'], items := s'
        error := none }

/-- The per-record position updates `reorderItems` computes (useList.ts
lines 246-249): `reorderedItems.map((item, index) => ({id, orderIndex:
index}))`, i.e. record ids paired with consecutive indices from `n`. -/
def computeOrderUpdatesFrom (n : Int) : List Item → List (String × Int)
  | [] => []
  | x :: xs => (x.id, n) :: computeOrderUpdatesFrom (n + 1) xs

/-- Position assignment of `reorderItems`: consecutive indices from 0. -/
def computeOrderUpdates (l : List Item) : List (String × Int) :=
  computeOrderUpdatesFrom 0 l

/-- Embedding of `reorderItems` (useList.ts lines 241-259): optimistically replaces the
items array with the given reordered list, then sends the batch of
per-record position updates through `ItemsService.reorderItems`; on
failure sets the error field and calls `fetchItems()` to resynchronize. -/
def reorderItems (reordered : List Item) (resp : Option String) : OpResult :=
  let req := NetRequest.reorderReq (computeOrderUpdates reordered)
  match resp with
  | some e =>
      { trace := [.setItemsStep reordered, .requestStep req,
          .setErrorStep e, .refetchStep]
        items := reordered, error := some e }
  | none =>
      { trace := [.setItemsStep reordered, .requestStep req]
        items := reordered, error := none }

/-- Embedding of `clearBoughtItems` (useList.ts lines 262-274, items.ts lines 318-340):
awaits the single batch soft-delete filtered by list id and bought flag;
on error sets the error field and returns (no refetch, no local change);
on success filters the bought records out of the items array. -/
def clearBoughtItems (s : List Item) (listId : String)
    (resp : Option String) : OpResult :=
  let req := NetRequest.clearReq listId true
  match resp with
  | some e =>
      { trace := [.requestStep req, .setErrorStep e], items := s
        error := some e }
  | none =>
      let s' := s.filter (fun i => !i.isBought)
      { trace := [.requestStep req, .setItemsStep s'], items := s'
        error := none }

/-- The hook's reactive state: items array, loading flag, error field. -/
structure ListState where
  items : List Item
  loading : Bool
  error : Option String
deriving DecidableEq, Repr

/-- Embedding of `fetchItems` (useList.ts lines 13-46), given the previous state and the
response of `ItemsService.getListItems`: on error it stores the error and
sets the items array to `[]` (the cached records are discarded); on
success it replaces the items array wholesale with the mapped rows. -/
def fetchItems (_prev : ListState) (resp : Except String (List DbItem)) :
    ListState :=
  match resp with
  | .error e => { items := [], loading := false, error := some e }
  | .ok rows =>
      { items := rows.map mapItemFetch, loading := false, error := none }

/-- Lookup in the realtime service's channels map (`Map.get`), with string
keys compared by equality in insertion order. -/
def findChannel : List (String × Nat) → String → Option Nat
  | [], _ => none
  | (k, c) :: rest, key => if k = key then some c else findChannel rest key

/-- The realtime service's registry state: the `channels` map (list-id keys
to channel handles, in insertion order) plus a counter supplying fresh
channel handles (`supabase.channel(...)` always returns a new channel). -/
structure RealtimeState where
  channels : List (String × Nat)
  nextId : Nat
deriving DecidableEq, Repr

/-- Embedding of `RealtimeService.subscribeToListItems` (realtime.ts lines 24-93): if a
channel for the list id already exists it is returned unchanged and no new
channel is created; otherwise a fresh channel is created and stored. -/
def subscribeToListItems (st : RealtimeState) (listId : String) :
    Nat × RealtimeState :=
  match findChannel st.channels listId with
  | some c => (c, st)
  | none =>
      (st.nextId,
        { channels := st.channels ++ [(listId, st.nextId)]
          nextId := st.nextId + 1 })

/-- Embedding of `RealtimeService.unsubscribeFromListItems` (realtime.ts lines 98-106):
removes the list id's entry from the channels map when present. -/
def unsubscribeFromListItems (st : RealtimeState) (listId : String) :
    RealtimeState :=
  { st with channels := st.channels.filter (fun p => p.1 != listId) }

/-- Embedding of `RealtimeService.unsubscribeAll` (realtime.ts lines 111-117): removes
every channel and clears the map. -/
def unsubscribeAll (st : RealtimeState) : RealtimeState :=
  { st with channels := [] }

/-- The registry invariant: at most one channel per list id, i.e. the keys
of the channels map are pairwise distinct. -/
def atMostOnePerList (st : RealtimeState) : Prop :=
  (st.channels.map Prod.fst).Nodup

/-- A sample pending item with id "a". -/
def itemA : Item :=
  { id := "a", listId := "l1", text := "Milk", quantity := none
    notes := none, isBought := false, orderIndex := 0, version := 1
    createdAt := "t0", updatedAt := "t0", deletedAt := none
    createdBy := none, createdByName := none }

/-- A sample pending item with id "a" whose provenance fields are set. -/
def itemProv : Item :=
  { itemA with createdBy := some "u1", createdByName := some "Ann" }

/-- A sample bought item with id "e". -/
def itemBought : Item :=
  { itemA with id := "e", text := "Eggs", isBought := true }

/-- Two sample bought items whose `updatedAt` stamps differ: `itemDone2`
was updated more recently than `itemDone1`. -/
def itemDone1 : Item :=
  { itemA with id := "d1", isBought := true, updatedAt := "2024-01-01" }

/-- The more recently updated of the two sample bought items. -/
def itemDone2 : Item :=
  { itemA with id := "d2", isBought := true, updatedAt := "2024-01-02" }

/-- A sample server row with id "b", distinct from `itemA`'s id. -/
def rowB : DbItem :=
  { id := "b", list_id := "l1", text := "Eggs", quantity := none
    notes := none, is_bought := false, order_index := 1, version := 1
    created_at := "t1", updated_at := "t1", deleted_at := none
    created_by := none, profiles := none }

/-- A sample server row with id "a" and the bought flag set, as returned by
a successful `toggleItemBought("a", true)`. -/
def rowADone : DbItem :=
  { rowB with id := "a", text := "Milk", is_bought := true, order_index := 0 }

/-- A sample INSERT change-feed event for the row with id "b". -/
def insertB : ItemChange := { type := .INSERT, item := rowB }

/-- C1 counterexample: on the state holding only `itemA`, a successful
`deleteItem("a")` issues the soft-delete request as its very first step and
only then removes the record from the items array, so no write to the
items array precedes the network request — the claimed
optimistic-before-request ordering fails for `remove`. -/
theorem c1_counterexample :
    optimisticBeforeRequest ((deleteItem [itemA] "a" none).trace) = false ∧
    (deleteItem [itemA] "a" none).trace.any isSetItems = true := by
  decide

/-- C1 amended: only `reorder` applies its optimistic change to the items
array before issuing the network request; `add`, `update`, `toggleDone`,
`remove` and `clearDone` issue the network request first and write to the
items array only after a successful response. -/
theorem c1_theorem (s : List Item) (listId text : String)
    (q n u : Option String) (rc ru rt : Except String DbItem)
    (itemId : String) (b : Bool) (rd : Option String)
    (reordered : List Item) (rr rcl : Option String) :
    optimisticBeforeRequest (reorderItems reordered rr).trace = true ∧
    optimisticBeforeRequest (addItem s listId text q n u rc).trace = false ∧
    optimisticBeforeRequest (updateItem s itemId ru).trace = false ∧
    optimisticBeforeRequest (toggleItem s itemId b rt).trace = false ∧
    optimisticBeforeRequest (deleteItem s itemId rd).trace = false ∧
    optimisticBeforeRequest (clearBoughtItems s listId rcl).trace = false := by
  refine ⟨?_, ?_, ?_, ?_, ?_, ?_⟩
  · cases rr <;> rfl
  · cases rc <;> rfl
  · cases ru <;> rfl
  · cases rt <;> rfl
  · cases rd <;> rfl
  · cases rcl <;> rfl

/-- C5 amended: `clearDone` sends the single batch soft-delete (filtered by
list id and bought flag) as its first step, before any local change; on
success it removes the bought records from the items array; on failure it
only records the error — the items array is untouched and no refetch
happens. -/
theorem c5_theorem (s : List Item) (listId : String) (e : String) :
    (∀ resp : Option String,
      (clearBoughtItems s listId resp).trace.head? =
        some (.requestStep (.clearReq listId true)) ∧
      (clearBoughtItems s listId resp).trace.countP isRequest = 1) ∧
    (clearBoughtItems s listId none).items =
      s.filter (fun i => !i.isBought) ∧
    (clearBoughtItems s listId (some e)).items = s ∧
    (clearBoughtItems s listId (some e)).error = some e ∧
    (clearBoughtItems s listId (some e)).trace.any isRefetch = false := by
  refine ⟨fun resp => ?_, rfl, rfl, rfl, rfl⟩
  cases resp <;> exact ⟨rfl, rfl⟩

/-- C5 counterexample: a failed `clearDone` on a state holding one bought
item performs no optimistic removal before the request, does not refetch,
and leaves the items array unchanged — it only surfaces the error. -/
theorem c5_counterexample :
    optimisticBeforeRequest
      ((clearBoughtItems [itemBought] "l1" (some "netfail")).trace) = false ∧
    (clearBoughtItems [itemBought] "l1" (some "netfail")).trace.any
      isRefetch = false ∧
    (clearBoughtItems [itemBought] "l1" (some "netfail")).items =
      [itemBought] := by
  decide

/-- C6: when the soft-delete request of `remove(id)` fails, the items array
at the moment the error is recorded equals the pre-operation items array,
so a record with the removed id is still present with its original fields. -/
theorem c6_theorem (s : List Item) (itemId : String) (e : String) :
    (deleteItem s itemId (some e)).items = s ∧
    (deleteItem s itemId (some e)).error = some e ∧
    ((∃ x ∈ s, x.id = itemId) →
      ∃ x ∈ (deleteItem s itemId (some e)).items, x.id = itemId) := by
  exact ⟨rfl, rfl, fun h => h⟩

/-- C6 witness: a failed `deleteItem("a")` on the singleton state `[itemA]`
leaves the state unchanged and the record with id "a" present. -/
theorem c6_witness :
    (deleteItem [itemA] "a" (some "boom")).items = [itemA] ∧
    ∃ x ∈ (deleteItem [itemA] "a" (some "boom")).items, x.id = "a" := by
  have h := c6_theorem [itemA] "a" "boom"
  exact ⟨h.1, h.2.2 ⟨itemA, by simp, rfl⟩⟩

/-- C9: a failed `fetchItems` discards the cached records — whatever the
previous state held, the resulting state has an empty items array, the
fetch error stored, and the loading flag cleared. -/
theorem c9_theorem (prev : ListState) (e : String) :
    fetchItems prev (.error e) =
      { items := [], loading := false, error := some e } := by
  rfl

@[simp]
theorem mapItemBare_id (d : DbItem) : (mapItemBare d).id = d.id := rfl

@[simp]
theorem mapItemBare_isBought (d : DbItem) :
    (mapItemBare d).isBought = d.is_bought := rfl

theorem mapItemBare_createdBy (d : DbItem) :
    (mapItemBare d).createdBy = none := rfl

theorem mapItemBare_createdByName (d : DbItem) :
    (mapItemBare d).createdByName = none := rfl

/-- C2 counterexample: while the client-wide `isPerformingOperation` flag
is set (for instance by an operation on the record with id "a"), the
INSERT event for the distinct, unguarded id "b" is dropped and the items
array does not change, although with the flag clear the very same event
would be applied by appending the record — so events are not dropped
per record id. -/
theorem c2_counterexample :
    handleRealtimeChange true insertB [itemA] = [itemA] ∧
    handleRealtimeChange false insertB [itemA] = [itemA, mapItemBare rowB] ∧
    insertB.item.id ≠ itemA.id := by
  decide

/-- C2 amended: the echo guard is the single client-wide
`isPerformingOperation` flag, not a per-record guard: while it is set,
every inbound event is dropped whatever its record id; while it is clear,
an INSERT appends the record unless its id is already present, an UPDATE
replaces the record with the matching id, and a DELETE removes the record
with the matching id. -/
theorem c2_theorem (change : ItemChange) (items : List Item) :
    handleRealtimeChange true change items = items ∧
    (change.type = .INSERT →
      ((∃ x ∈ items, x.id = change.item.id) →
        handleRealtimeChange false change items = items) ∧
      ((∀ x ∈ items, x.id ≠ change.item.id) →
        handleRealtimeChange false change items =
          items ++ [mapItemBare change.item])) ∧
    (change.type = .UPDATE →
      handleRealtimeChange false change items =
        items.map (fun i =>
          if i.id == change.item.id then mapItemBare change.item else i)) ∧
    (change.type = .DELETE →
      handleRealtimeChange false change items =
        items.filter (fun i => i.id != change.item.id)) := by
  obtain ⟨ty, d⟩ := change
  refine ⟨by simp [handleRealtimeChange], ?_, ?_, ?_⟩
  · rintro rfl
    constructor
    · rintro ⟨x, hx, hid⟩
      have h : items.any (fun i => i.id == (mapItemBare d).id) = true :=
        List.any_eq_true.mpr ⟨x, hx, by simp [hid]⟩
      show (if items.any (fun i => i.id == (mapItemBare d).id) then items
        else items ++ [mapItemBare d]) = items
      rw [if_pos h]
    · intro habs
      have h : items.any (fun i => i.id == (mapItemBare d).id) = false := by
        rw [List.any_eq_false]
        intro x hx
        simp only [mapItemBare_id, beq_iff_eq]
        exact habs x hx
      show (if items.any (fun i => i.id == (mapItemBare d).id) then items
        else items ++ [mapItemBare d]) = items ++ [mapItemBare d]
      rw [if_neg (by rw [h]; exact Bool.false_ne_true)]
  · rintro rfl; rfl
  · rintro rfl; rfl

/-- C2 witness: with the flag set, the INSERT event for id "b" leaves the
singleton state over id "a" unchanged; with the flag clear, the same event
appends the record. -/
theorem c2_witness :
    handleRealtimeChange true insertB [itemA] = [itemA] ∧
    handleRealtimeChange false insertB [itemA] =
      [itemA] ++ [mapItemBare rowB] := by
  refine ⟨(c2_theorem insertB [itemA]).1, ?_⟩
  exact ((c2_theorem insertB [itemA]).2.1 rfl).2 (by decide)

/-- Among items whose mapped ids are pairwise distinct, exactly one has a
given id as soon as some one of them has it. -/
theorem countP_id_one_of_nodup (a : String) (items : List Item) :
    (items.map Item.id).Nodup → (∃ x ∈ items, x.id = a) →
    items.countP (fun y => y.id == a) = 1 := by
  induction items with
  | nil => rintro _ ⟨x, hx, _⟩; cases hx
  | cons y ys ih =>
    rintro hnd ⟨x, hx, hid⟩
    rw [List.map_cons, List.nodup_cons] at hnd
    rcases List.mem_cons.mp hx with rfl | hmem
    · rw [List.countP_cons, if_pos (by simp [hid])]
      have h0 : ys.countP (fun z => z.id == a) = 0 := by
        rw [List.countP_eq_zero]
        intro z hz
        simp only [beq_iff_eq]
        intro hza
        exact hnd.1 (List.mem_map.mpr ⟨z, hz, by rw [hza, hid]⟩)
      rw [h0]
    · have hya : ¬((fun z : Item => z.id == a) y = true) := by
        simp only [beq_iff_eq]
        intro h
        exact hnd.1 (List.mem_map.mpr ⟨x, hmem, by rw [hid, h]⟩)
      rw [List.countP_cons, if_neg hya, Nat.add_zero]
      exact ih hnd.2 ⟨x, hmem, hid⟩

/-- Replacing the record matching an id is idempotent on the items array. -/
theorem replaceOnce_fix (m a : Item) :
    (if (if a.id == m.id then m else a).id == m.id then m
     else (if a.id == m.id then m else a)) =
    (if a.id == m.id then m else a) := by
  by_cases h : (a.id == m.id) = true
  · simp [h]
  · simp [h]

/-- Mapping the id-matching replacement twice equals mapping it once. -/
theorem replaceTwice (m : Item) (items : List Item) :
    (items.map (fun i => if i.id == m.id then m else i)).map
      (fun i => if i.id == m.id then m else i) =
    items.map (fun i => if i.id == m.id then m else i) := by
  rw [List.map_map]
  apply List.map_congr_left
  intro a _
  simp only [Function.comp_apply]
  exact replaceOnce_fix m a

/-- C3: `handleRealtimeChange` is idempotent under duplicate delivery —
a DELETE for an absent id leaves the items array unchanged, applied once
or twice; an INSERT applied twice leaves exactly one record with the
event's id (on a state with pairwise-distinct ids); an identical UPDATE
applied twice equals applying it once. -/
theorem c3_theorem (items : List Item) (ddel dins dupd : DbItem) :
    ((∀ x ∈ items, x.id ≠ ddel.id) →
      handleRealtimeChange false ⟨.DELETE, ddel⟩ items = items ∧
      handleRealtimeChange false ⟨.DELETE, ddel⟩
        (handleRealtimeChange false ⟨.DELETE, ddel⟩ items) = items) ∧
    ((items.map Item.id).Nodup →
      (handleRealtimeChange false ⟨.INSERT, dins⟩
        (handleRealtimeChange false ⟨.INSERT, dins⟩ items)).countP
          (fun y => y.id == dins.id) = 1) ∧
    handleRealtimeChange false ⟨.UPDATE, dupd⟩
      (handleRealtimeChange false ⟨.UPDATE, dupd⟩ items) =
    handleRealtimeChange false ⟨.UPDATE, dupd⟩ items := by
  refine ⟨?_, ?_, ?_⟩
  · intro habs
    have h1 : handleRealtimeChange false ⟨.DELETE, ddel⟩ items = items := by
      show items.filter (fun i => i.id != (mapItemBare ddel).id) = items
      refine List.filter_eq_self.mpr (fun x hx => ?_)
      simp only [mapItemBare_id, bne_iff_ne, ne_eq]
      exact habs x hx
    exact ⟨h1, by rw [h1, h1]⟩
  · intro hnd
    by_cases hpres : items.any (fun i => i.id == (mapItemBare dins).id) = true
    · have h1 : handleRealtimeChange false ⟨.INSERT, dins⟩ items = items := by
        show (if items.any (fun i => i.id == (mapItemBare dins).id) then items
          else items ++ [mapItemBare dins]) = items
        rw [if_pos hpres]
      rw [h1, h1]
      obtain ⟨x, hx, hxid⟩ := List.any_eq_true.mp hpres
      exact countP_id_one_of_nodup dins.id items hnd
        ⟨x, hx, by simpa using hxid⟩
    · have hfalse : items.any (fun i => i.id == (mapItemBare dins).id)
          = false := by
        simpa using hpres
      have h1 : handleRealtimeChange false ⟨.INSERT, dins⟩ items =
          items ++ [mapItemBare dins] := by
        show (if items.any (fun i => i.id == (mapItemBare dins).id) then items
          else items ++ [mapItemBare dins]) = items ++ [mapItemBare dins]
        rw [if_neg (by rw [hfalse]; exact Bool.false_ne_true)]
      rw [h1]
      have h2 : handleRealtimeChange false ⟨.INSERT, dins⟩
          (items ++ [mapItemBare dins]) = items ++ [mapItemBare dins] := by
        have hany : (items ++ [mapItemBare dins]).any
            (fun i => i.id == (mapItemBare dins).id) = true :=
          List.any_eq_true.mpr ⟨mapItemBare dins, by simp, by simp⟩
        show (if (items ++ [mapItemBare dins]).any
            (fun i => i.id == (mapItemBare dins).id)
          then items ++ [mapItemBare dins]
          else (items ++ [mapItemBare dins]) ++ [mapItemBare dins]) =
          items ++ [mapItemBare dins]
        rw [if_pos hany]
      rw [h2, List.countP_append]
      have hz : items.countP (fun y => y.id == dins.id) = 0 := by
        rw [List.countP_eq_zero]
        intro z hz
        have := List.any_eq_false.mp hfalse z hz
        simpa using this
      rw [hz]
      simp [List.countP_cons]
  · exact replaceTwice (mapItemBare dupd) items

/-- C3 witness: on the singleton state over id "a" and events for id "b",
the duplicate DELETE is a no-op, the duplicate INSERT leaves one record
with id "b", and the duplicate UPDATE equals a single UPDATE. -/
theorem c3_witness :
    handleRealtimeChange false ⟨.DELETE, rowB⟩ [itemA] = [itemA] ∧
    (handleRealtimeChange false ⟨.INSERT, rowB⟩
      (handleRealtimeChange false ⟨.INSERT, rowB⟩ [itemA])).countP
        (fun y => y.id == rowB.id) = 1 ∧
    handleRealtimeChange false ⟨.UPDATE, rowB⟩
      (handleRealtimeChange false ⟨.UPDATE, rowB⟩ [itemA]) =
    handleRealtimeChange false ⟨.UPDATE, rowB⟩ [itemA] := by
  have h := c3_theorem [itemA] rowB rowB rowB
  exact ⟨(h.1 (by decide)).1, h.2.1 (by decide), h.2.2⟩

/-- C4 counterexample: on a state of two bought records where `itemDone2`
carries the more recent `updatedAt` stamp ("2024-01-02" versus
"2024-01-01"), `boughtItems` returns them in items-array order, not
most-recently-updated first — the claimed recency ordering of the done
subset does not hold. -/
theorem c4_counterexample :
    boughtItems [itemDone1, itemDone2] = [itemDone1, itemDone2] ∧
    boughtItems [itemDone1, itemDone2] ≠ [itemDone2, itemDone1] ∧
    itemDone1.updatedAt ≠ itemDone2.updatedAt := by
  decide

/-- C4 amended: the two views are a pure partition of the items array by
the done flag, each preserving the items-array order (there is no
priority-first reordering — the model has no priority field — and no
recency ordering of the done subset); and a toggle reaches the views only
after its network request: the operation's first step is the request, and
on success the replaced record lands in the done view and leaves the
pending view. -/
theorem c4_theorem (items : List Item) (itemId : String) (b : Bool)
    (resp : Except String DbItem) (d : DbItem) :
    (unboughtItems items).Sublist items ∧
    (boughtItems items).Sublist items ∧
    (∀ x, x ∈ unboughtItems items ↔ x ∈ items ∧ x.isBought = false) ∧
    (∀ x, x ∈ boughtItems items ↔ x ∈ items ∧ x.isBought = true) ∧
    (unboughtItems items ++ boughtItems items).Perm items ∧
    (toggleItem items itemId b resp).trace.head? =
      some (.requestStep (.toggleReq itemId b)) ∧
    (d.is_bought = true → (∃ x ∈ items, x.id = itemId) →
      mapItemBare d ∈ boughtItems (toggleItem items itemId b (.ok d)).items ∧
      mapItemBare d ∉
        unboughtItems (toggleItem items itemId b (.ok d)).items) := by
  refine ⟨List.filter_sublist _, List.filter_sublist _, ?_, ?_, ?_, ?_, ?_⟩
  · intro x
    simp [unboughtItems, List.mem_filter]
  · intro x
    simp [boughtItems, List.mem_filter]
  · have hperm := List.filter_append_perm (fun i : Item => !i.isBought) items
    simpa [unboughtItems, boughtItems, Bool.not_not] using hperm
  · cases resp <;> rfl
  · intro hd hex
    obtain ⟨x, hx, hxid⟩ := hex
    have hmem : mapItemBare d ∈ (toggleItem items itemId b (.ok d)).items := by
      show mapItemBare d ∈
        items.map (fun i => if i.id == itemId then mapItemBare d else i)
      exact List.mem_map.mpr ⟨x, hx, by rw [if_pos (by simp [hxid])]⟩
    constructor
    · exact List.mem_filter.mpr ⟨hmem, by simp [hd]⟩
    · intro hcontra
      have hflag := (List.mem_filter.mp hcontra).2
      simp [hd] at hflag

/-- C4 witness: toggling the pending record "a" to done with the server
row `rowADone` moves the mapped record into the done view and out of the
pending view. -/
theorem c4_witness :
    mapItemBare rowADone ∈
      boughtItems (toggleItem [itemA] "a" true (.ok rowADone)).items ∧
    mapItemBare rowADone ∉
      unboughtItems (toggleItem [itemA] "a" true (.ok rowADone)).items := by
  have h := c4_theorem [itemA] "a" true (.ok rowADone) rowADone
  exact h.2.2.2.2.2.2 rfl ⟨itemA, by simp, rfl⟩

/-- Ids of the computed position updates, in order, are the ids of the
reordered items. -/
theorem computeOrderUpdatesFrom_fst (l : List Item) :
    ∀ n : Int, (computeOrderUpdatesFrom n l).map Prod.fst = l.map Item.id := by
  induction l with
  | nil => intro n; rfl
  | cons x xs ih =>
      intro n
      simp [computeOrderUpdatesFrom, ih]

/-- Positions of the computed position updates are consecutive from `n`. -/
theorem computeOrderUpdatesFrom_snd (l : List Item) :
    ∀ n : Int, (computeOrderUpdatesFrom n l).map Prod.snd =
      (List.range l.length).map (fun i => n + Int.ofNat i) := by
  induction l with
  | nil => intro n; rfl
  | cons x xs ih =>
      intro n
      have h1 : (computeOrderUpdatesFrom n (x :: xs)).map Prod.snd =
          n :: (computeOrderUpdatesFrom (n + 1) xs).map Prod.snd := rfl
      have h2 : List.range (x :: xs).length =
          0 :: (List.range xs.length).map Nat.succ := by
        rw [List.length_cons, List.range_succ_eq_map]
      rw [h1, ih (n + 1), h2, List.map_cons, List.map_map]
      refine List.cons_eq_cons.mpr
        ⟨by simp only [Int.ofNat_eq_coe]; omega, ?_⟩
      refine List.map_congr_left (fun i _ => ?_)
      show n + 1 + Int.ofNat i = n + Int.ofNat (Nat.succ i)
      simp only [Int.ofNat_eq_coe]
      omega

/-- C7: `reorder` first optimistically replaces the items array with the
given order, then sends one batch request of per-record position updates
whose ids follow the new order and whose positions are the consecutive
integers 0..N-1 (a deterministic pure function of the input); on failure
it records the error and falls back to a full refetch. -/
theorem c7_theorem (reordered : List Item) (e : String) :
    (∀ resp : Option String,
      (reorderItems reordered resp).trace.head? =
        some (.setItemsStep reordered) ∧
      optimisticBeforeRequest (reorderItems reordered resp).trace = true ∧
      Step.requestStep (.reorderReq (computeOrderUpdates reordered)) ∈
        (reorderItems reordered resp).trace ∧
      (reorderItems reordered resp).items = reordered) ∧
    (computeOrderUpdates reordered).map Prod.fst = reordered.map Item.id ∧
    (computeOrderUpdates reordered).map Prod.snd =
      (List.range reordered.length).map (fun i => Int.ofNat i) ∧
    (reorderItems reordered (some e)).trace.any isRefetch = true ∧
    (reorderItems reordered (some e)).error = some e := by
  refine ⟨fun resp => ?_, computeOrderUpdatesFrom_fst reordered 0, ?_, rfl, rfl⟩
  · cases resp <;> exact ⟨rfl, rfl, by simp [reorderItems], rfl⟩
  · rw [show computeOrderUpdates reordered =
      computeOrderUpdatesFrom 0 reordered from rfl]
    rw [computeOrderUpdatesFrom_snd reordered 0]
    refine List.map_congr_left (fun i _ => ?_)
    rw [zero_add]

/-- A key absent from the channels map, as reported by `findChannel`, is
not among the map's keys. -/
theorem findChannel_none_not_mem (l : List (String × Nat)) (key : String) :
    findChannel l key = none → key ∉ l.map Prod.fst := by
  induction l with
  | nil =>
      intro _ h
      cases h
  | cons p rest ih =>
      obtain ⟨k, c⟩ := p
      intro h
      simp only [findChannel] at h
      by_cases hk : k = key
      · rw [if_pos hk] at h
        cases h
      · rw [if_neg hk] at h
        simp only [List.map_cons, List.mem_cons]
        rintro (h1 | h2)
        · exact hk h1.symm
        · exact ih h h2

/-- C8: on a registry whose keys are pairwise distinct, subscribing to a
list id that already has a channel returns that channel and leaves the
registry untouched, and each of subscribe, unsubscribe and unsubscribeAll
preserves the at-most-one-channel-per-list invariant. -/
theorem c8_theorem (st : RealtimeState) (listId : String)
    (h : atMostOnePerList st) :
    (∀ c, findChannel st.channels listId = some c →
      subscribeToListItems st listId = (c, st)) ∧
    atMostOnePerList (subscribeToListItems st listId).2 ∧
    atMostOnePerList (unsubscribeFromListItems st listId) ∧
    atMostOnePerList (unsubscribeAll st) := by
  refine ⟨?_, ?_, ?_, ?_⟩
  · intro c hc
    simp [subscribeToListItems, hc]
  · cases hf : findChannel st.channels listId with
    | some c =>
        simpa [atMostOnePerList, subscribeToListItems, hf] using h
    | none =>
        have hnot := findChannel_none_not_mem st.channels listId hf
        simp only [atMostOnePerList, subscribeToListItems, hf]
        rw [List.map_append, List.nodup_append]
        refine ⟨h, List.nodup_singleton _, ?_⟩
        intro a ha hb
        simp only [List.map_cons, List.map_nil, List.mem_singleton] at hb
        exact hnot (hb ▸ ha)
  · have hsub : ((st.channels.filter (fun p => p.1 != listId)).map
        Prod.fst).Sublist (st.channels.map Prod.fst) :=
      (List.filter_sublist _).map _
    exact hsub.nodup h
  · simp [atMostOnePerList, unsubscribeAll]

/-- C8 witness: on a registry already holding a channel for "l1", a second
subscribe for "l1" returns the existing handle and changes nothing, and
the invariant is preserved by subscribe and unsubscribe. -/
theorem c8_witness :
    subscribeToListItems ⟨[("l1", 0)], 1⟩ "l1" = (0, ⟨[("l1", 0)], 1⟩) ∧
    atMostOnePerList (subscribeToListItems ⟨[("l1", 0)], 1⟩ "l1").2 ∧
    atMostOnePerList (unsubscribeFromListItems ⟨[("l1", 0)], 1⟩ "l1") := by
  have h := c8_theorem ⟨[("l1", 0)], 1⟩ "l1" (by simp [atMostOnePerList])
  exact ⟨h.1 0 rfl, h.2.1, h.2.2.1⟩

/-- C10: every record of the post-state of a successful update or toggle
that carries the targeted id is the bare-mapped server row, whose
`createdBy` and `createdByName` are `none`; whereas the mappings used by
`addItem` and the initial load populate `createdBy` from the row (and the
appended record of a successful add uses that mapping). -/
theorem c10_theorem (s : List Item) (itemId : String) (d : DbItem)
    (b : Bool) (listId text : String) (q n u : Option String) :
    (∀ x ∈ (updateItem s itemId (.ok d)).items, x.id = itemId →
      x.createdBy = none ∧ x.createdByName = none) ∧
    (∀ x ∈ (toggleItem s itemId b (.ok d)).items, x.id = itemId →
      x.createdBy = none ∧ x.createdByName = none) ∧
    (addItem s listId text q n u (.ok d)).items = s ++ [mapItemAdd d u] ∧
    (mapItemAdd d u).createdBy = orUndefined d.created_by ∧
    (mapItemFetch d).createdBy = orUndefined d.created_by ∧
    (mapItemBare d).createdBy = none ∧
    (mapItemBare d).createdByName = none := by
  have key : ∀ x ∈ s.map (fun i => if i.id == itemId then mapItemBare d
      else i), x.id = itemId → x.createdBy = none ∧ x.createdByName = none := by
    intro x hx hid
    obtain ⟨a, ha, rfl⟩ := List.mem_map.mp hx
    by_cases hcase : (a.id == itemId) = true
    · rw [if_pos hcase]
      exact ⟨rfl, rfl⟩
    · rw [if_neg hcase] at hid ⊢
      exact absurd (beq_iff_eq.mpr hid) hcase
  exact ⟨key, key, rfl, rfl, rfl, rfl, rfl⟩

/-- C10 witness: updating the record "a", whose provenance fields are set
in `itemProv`, replaces it by the bare-mapped row with both provenance
fields `none`. -/
theorem c10_witness :
    mapItemBare rowADone ∈ (updateItem [itemProv] "a" (.ok rowADone)).items ∧
    (mapItemBare rowADone).createdBy = none ∧
    (mapItemBare rowADone).createdByName = none ∧
    itemProv.createdBy = some "u1" := by
  have h := c10_theorem [itemProv] "a" rowADone true "l1" "Milk" none none none
  have hmem : mapItemBare rowADone ∈
      (updateItem [itemProv] "a" (.ok rowADone)).items := by
    decide
  exact ⟨hmem, (h.1 _ hmem rfl).1, (h.1 _ hmem rfl).2, rfl⟩

end ShoppingList
